import Mathlib

/-!
Verification of the Go submission server (src/server-go/main.go): the
login handler, the GitHub-backed append operation, and the JSON record
codec, embedded shallowly as Lean functions over a JSON value type and
an explicit versioned blob-store state.
-/

namespace QuizServer

/-- JSON values, the shape layer shared by the record codec and the
request bodies.  Byte-level serialization (whitespace, escaping,
base64 transport) is abstracted away: content travels as `Json`. -/
inductive Json where
  | null
  | bool (b : Bool)
  | num (n : Int)
  | str (s : String)
  | arr (elems : List Json)
  | obj (fields : List (String × Json))

/-- Mirror of Go struct `Submission` (main.go:19-24): four string
fields; `linkedin` carries the json tag `omitempty`. -/
structure Submission where
  name : String
  phone : String
  linkedin : String
  timestamp : String
deriving DecidableEq

/-- Modelled from the spec: last-occurrence key lookup in a JSON object,
as Go json.Unmarshal keeps the final duplicate of a repeated key. -/
def jsonLookup (key : String) : List (String × Json) → Option Json
  | [] => none
  | (k, v) :: rest =>
      match jsonLookup key rest with
      | some r => some r
      | none => if k = key then some v else none

/-- Modelled from the spec: reading one string-typed struct field the
way Go json.Unmarshal does: an absent key leaves the zero value "",
a present key must hold a JSON string, anything else is a decode
error. -/
def getStringField (fields : List (String × Json)) (key : String) : Option String :=
  match jsonLookup key fields with
  | none => some ""
  | some (.str s) => some s
  | some _ => none

/-- Modelled from the spec: decoding one ledger record, the per-element
behaviour of Go json.Unmarshal into `Submission`. -/
def decodeSubmission : Json → Option Submission
  | .obj fields =>
      match getStringField fields "name", getStringField fields "phone",
            getStringField fields "linkedin", getStringField fields "timestamp" with
      | some n, some p, some l, some t => some ⟨n, p, l, t⟩
      | _, _, _, _ => none
  | _ => none

/-- Modelled from the spec: elementwise decoding of a JSON array of
records; any failing element fails the whole decode. -/
def decodeSubmissionList : List Json → Option (List Submission)
  | [] => some []
  | j :: rest =>
      match decodeSubmission j, decodeSubmissionList rest with
      | some s, some l => some (s :: l)
      | _, _ => none

/-- Modelled from the spec: the codec decode direction, Go
json.Unmarshal of blob content into `[]Submission` (main.go:188).
A JSON `null` unmarshals into a slice as the nil slice, hence the
empty ledger; any non-array shape is a decode failure. -/
def decodeSubmissions : Json → Option (List Submission)
  | .arr elems => decodeSubmissionList elems
  | .null => some []
  | _ => none

/-- Modelled from the spec: encoding one record, Go json.Marshal field
order = struct order, with `linkedin` omitted when empty
(`omitempty`, main.go:22). -/
def encodeSubmission (s : Submission) : Json :=
  .obj ([("name", .str s.name), ("phone", .str s.phone)]
    ++ (if s.linkedin = "" then [] else [("linkedin", .str s.linkedin)])
    ++ [("timestamp", .str s.timestamp)])

/-- Modelled from the spec: the codec encode direction, Go
json.MarshalIndent of the record slice (main.go:194); pretty-printing
is byte-level and abstracted away at the `Json` layer. -/
def encodeSubmissions (xs : List Submission) : Json :=
  .arr (xs.map encodeSubmission)

/-- The remote versioned blob store at one path: absent, or content
plus a version token (GitHub blob sha, modelled as a counter). -/
structure Store where
  blob : Option (Json × Nat)

/-- Outcome of fetching the blob, mirror of getGitHubFile
(main.go:205-243): the decoded content plus its sha, or not-found
(HTTP 404, main.go:222-224). -/
inductive FetchResult where
  | found (content : Json) (sha : Nat)
  | notFound

/-- Modelled from the spec: the store side of getGitHubFile — the
GitHub Contents API GET, which returns the current content and
version of the blob, or 404 when it does not exist. -/
def fetch (st : Store) : FetchResult :=
  match st.blob with
  | none => .notFound
  | some (c, v) => .found c v

/-- Outcome of the conditional PUT as seen by putGitHubFile
(main.go:279-283): success (2xx) or a rejected write (non-2xx;
for a version mismatch GitHub answers 409/422). -/
inductive CommitResult where
  | committed
  | conflict
deriving DecidableEq

/-- Modelled from the spec: the store side of putGitHubFile — the
GitHub Contents API conditional PUT.  With no expected sha the write
only creates a fresh blob; with an expected sha it only replaces a
blob whose current sha matches, bumping the version; otherwise the
store is unchanged and the write is rejected. -/
def commit (st : Store) (content : Json) (expectedSha : Option Nat) :
    CommitResult × Store :=
  match st.blob, expectedSha with
  | none, none => (.committed, ⟨some (content, 0)⟩)
  | none, some _ => (.conflict, st)
  | some _, none => (.conflict, st)
  | some (_, cur), some e =>
      if e = cur then (.committed, ⟨some (content, cur + 1)⟩)
      else (.conflict, st)

/-- Mirror of putGitHubFile (main.go:245-284): one conditional PUT of
the content; the sha field is omitted from the request exactly when
the caller has none (main.go:252-254, modelled as Option). -/
def putGitHubFile (st : Store) (content : Json) (sha : Option Nat) :
    CommitResult × Store :=
  commit st content sha

/-- Result of one append operation as the caller sees it: nil error,
or an error (surfaced by the handler as HTTP 500). -/
inductive AppendResult where
  | ok
  | appendFailed
deriving DecidableEq

/-- Observable trace of one run of appendSubmissionToGitHub: outcome,
resulting store, how many fetch and commit calls were issued, and for
the commit call (if any) the expected-sha argument and the content
sent. -/
structure AppendTrace where
  result : AppendResult
  store : Store
  fetchCalls : Nat
  commitCalls : Nat
  commitSha : Option (Option Nat)
  commitContent : Option Json

/-- Mirror of appendSubmissionToGitHub (main.go:175-201): fetch the
current file, on 404 start from the empty array with no sha
(main.go:179-181), on any JSON decode error fall back to the empty
slice (main.go:188-191), append the new item, re-encode, and issue a
single conditional PUT.  `mid` is the interference of concurrent
writers between the GET and the PUT (`id` for a quiescent store). -/
def appendSubmissionToGitHub (st : Store) (mid : Store → Store)
    (item : Submission) : AppendTrace :=
  let fetched : Json × Option Nat :=
    match fetch st with
    | .notFound => (Json.arr [], none)
    | .found content v => (content, some v)
  let arr : List Submission := (decodeSubmissions fetched.1).getD []
  let updated : Json := encodeSubmissions (arr ++ [item])
  let put := putGitHubFile (mid st) updated fetched.2
  { result := match put.1 with
      | .committed => .ok
      | .conflict => .appendFailed
    store := put.2
    fetchCalls := 1
    commitCalls := 1
    commitSha := some fetched.2
    commitContent := some updated }

/-- The same single-shot control flow of appendSubmissionToGitHub
(main.go:175-201) with the store's answer to each numbered commit call
abstracted as an oracle, so that attempt-indexed properties can be
stated.  Returns the outcome, the number of commit calls issued, and
the content of the successful commit if any. -/
def appendSubmissionOracle (fetchRes : FetchResult)
    (oracle : Nat → CommitResult) (item : Submission) :
    AppendResult × Nat × Option Json :=
  let fetched : Json × Option Nat :=
    match fetchRes with
    | .notFound => (Json.arr [], none)
    | .found content v => (content, some v)
  let arr : List Submission := (decodeSubmissions fetched.1).getD []
  let updated : Json := encodeSubmissions (arr ++ [item])
  match oracle 1 with
  | .committed => (.ok, 1, some updated)
  | .conflict => (.appendFailed, 1, none)

/-- Repeated appends against a quiescent store, used to state the
N-submission correctness property. -/
def runAppends (st : Store) (items : List Submission) : Store :=
  items.foldl (fun s it => (appendSubmissionToGitHub s id it).store) st

/-- Modelled from the spec: the space test of Go strings.TrimSpace
(unicode.IsSpace), restricted to the Latin-1 space characters it names:
space, tab, newline, vertical tab, form feed, carriage return, NEL and
NBSP. -/
def isSpaceChar (c : Char) : Bool :=
  c = ' ' || c = '\t' || c = '\n' || c = '\x0B' || c = '\x0C' || c = '\r'
    || c = '\u0085' || c = '\u00A0'

/-- Modelled from the spec: Go strings.TrimSpace — drop leading and
trailing white space (main.go:53-58, 149, 155-157). -/
def trimSpace (s : String) : String :=
  ⟨((s.data.dropWhile isSpaceChar).reverse.dropWhile isSpaceChar).reverse⟩

/-- The parsed body accepted by the login endpoint (main.go:137-141). -/
structure LoginInput where
  name : String
  phone : String
  linkedin : String
deriving DecidableEq

/-- Modelled from the spec: the strict body decode of loginHandler —
Go json.Decoder with DisallowUnknownFields into the three-string
struct (main.go:142-147): the body must be a JSON object, every key
must be one of the three known fields, present fields must be
strings, absent fields stay "". -/
def decodeLoginBody : Json → Option LoginInput
  | .obj fields =>
      if fields.all fun q =>
          q.1 = "name" || q.1 = "phone" || q.1 = "linkedin" then
        match getStringField fields "name", getStringField fields "phone",
              getStringField fields "linkedin" with
        | some n, some p, some l => some ⟨n, p, l⟩
        | _, _, _ => none
      else none
  | _ => none

/-- An HTTP request as the login handler sees it: the method and the
parsed JSON body. -/
structure Request where
  method : String
  body : Json

/-- Observable outcome of one request: response status, resulting
store, store traffic, and the record handed to the append operation
when one was. -/
structure HandlerOutcome where
  status : Nat
  store : Store
  fetchCalls : Nat
  commitCalls : Nat
  appended : Option Submission

/-- Mirror of loginHandler (main.go:131-173): non-POST gets 405;
undecodable body gets 400; name or phone blank after trimming gets
400 before any store traffic; otherwise the trimmed fields plus the
server timestamp `now` (time.Now, main.go:158) are appended, mapping
success to 201 and an append error to 500. -/
def loginHandler (now : String) (st : Store) (r : Request) : HandlerOutcome :=
  if r.method = "POST" then
    match decodeLoginBody r.body with
    | none => ⟨400, st, 0, 0, none⟩
    | some inp =>
        if trimSpace inp.name = "" ∨ trimSpace inp.phone = "" then
          ⟨400, st, 0, 0, none⟩
        else
          let submission : Submission :=
            ⟨trimSpace inp.name, trimSpace inp.phone, trimSpace inp.linkedin, now⟩
          let t := appendSubmissionToGitHub st id submission
          match t.result with
          | .ok => ⟨201, t.store, t.fetchCalls, t.commitCalls, some submission⟩
          | .appendFailed =>
              ⟨500, t.store, t.fetchCalls, t.commitCalls, some submission⟩
  else ⟨405, st, 0, 0, none⟩

/-- Mirror of withCORS (main.go:112-124): an OPTIONS request is
answered 204 No Content before the wrapped handler runs; every other
method is passed through. -/
def withCORS (next : Store → Request → HandlerOutcome) (st : Store)
    (r : Request) : HandlerOutcome :=
  if r.method = "OPTIONS" then ⟨204, st, 0, 0, none⟩ else next st r

/-- The /api/login endpoint as registered in main (main.go:80):
loginHandler wrapped in withCORS. -/
def handleLogin (now : String) (st : Store) (r : Request) : HandlerOutcome :=
  withCORS (loginHandler now) st r

/-- A concrete record used by witnesses and counterexamples. -/
def sampleSub : Submission :=
  ⟨"Ada Lovelace", "555-0100", "", "2026-01-01T00:00:00Z"⟩

theorem decodeSubmission_encodeSubmission (s : Submission) :
    decodeSubmission (encodeSubmission s) = some s := by
  obtain ⟨n, p, l, t⟩ := s
  by_cases h : l = "" <;>
    simp [encodeSubmission, decodeSubmission, getStringField, jsonLookup, h]

theorem decodeSubmissions_encodeSubmissions (xs : List Submission) :
    decodeSubmissions (encodeSubmissions xs) = some xs := by
  induction xs with
  | nil => rfl
  | cons x rest ih =>
      simp only [encodeSubmissions, decodeSubmissions, List.map_cons,
        decodeSubmissionList, decodeSubmission_encodeSubmission] at *
      simp [ih]

/-- One append against a quiescent store holding a well-formed ledger:
the operation decodes it, appends the record, and commits the extended
ledger at the next version. -/
theorem appendSubmissionToGitHub_step (L : List Submission) (v : Nat)
    (item : Submission) :
    appendSubmissionToGitHub ⟨some (encodeSubmissions L, v)⟩ id item =
      ⟨.ok, ⟨some (encodeSubmissions (L ++ [item]), v + 1)⟩, 1, 1,
        some (some v), some (encodeSubmissions (L ++ [item]))⟩ := by
  simp [appendSubmissionToGitHub, fetch, putGitHubFile, commit,
    decodeSubmissions_encodeSubmissions]

/-- C7: when fetch reports the blob missing, the operation composes
from the empty record list, issues its commit with the expected-sha
argument absent, and a successful commit creates the one-record
ledger. -/
theorem bootstrapAppend (st : Store) (item : Submission)
    (h : st.blob = none) :
    appendSubmissionToGitHub st id item =
      ⟨.ok, ⟨some (encodeSubmissions [item], 0)⟩, 1, 1, some none,
        some (encodeSubmissions [item])⟩
    ∧ decodeSubmissions (encodeSubmissions [item]) = some [item] := by
  refine ⟨?_, decodeSubmissions_encodeSubmissions _⟩
  simp [appendSubmissionToGitHub, fetch, putGitHubFile, commit, h,
    decodeSubmissions, decodeSubmissionList]

theorem bootstrapAppend_witness :
    (Store.mk none).blob = none
    ∧ (appendSubmissionToGitHub ⟨none⟩ id sampleSub =
        ⟨.ok, ⟨some (encodeSubmissions [sampleSub], 0)⟩, 1, 1, some none,
          some (encodeSubmissions [sampleSub])⟩
      ∧ decodeSubmissions (encodeSubmissions [sampleSub]) = some [sampleSub]) :=
  ⟨rfl, bootstrapAppend ⟨none⟩ sampleSub rfl⟩

/-- C1 fails on the code: with existing content that does not decode as
a record array, the append operation does not abort — it silently
treats the content as an empty ledger, still issues its commit, and
succeeds, leaving a one-record ledger in place of the corrupt
content. -/
theorem corruptContentSilentlyReset :
    decodeSubmissions (Json.str "oops") = none
    ∧ (appendSubmissionToGitHub ⟨some (Json.str "oops", 0)⟩ id sampleSub).result
        = .ok
    ∧ (appendSubmissionToGitHub ⟨some (Json.str "oops", 0)⟩ id sampleSub).commitCalls
        = 1
    ∧ (appendSubmissionToGitHub ⟨some (Json.str "oops", 0)⟩ id sampleSub).store.blob
        = some (encodeSubmissions [sampleSub], 1) :=
  ⟨rfl, rfl, rfl, rfl⟩

/-- C1 amended: if fetch succeeds but the content fails to decode as a
record array, the operation falls back to the empty ledger, commits a
one-record ledger over the corrupt content, and reports success (no
fail-closed abort). -/
theorem decodeFailureFallsBackToEmpty (st : Store) (c : Json) (v : Nat)
    (item : Submission) (h1 : st.blob = some (c, v))
    (h2 : decodeSubmissions c = none) :
    appendSubmissionToGitHub st id item =
      ⟨.ok, ⟨some (encodeSubmissions [item], v + 1)⟩, 1, 1, some (some v),
        some (encodeSubmissions [item])⟩ := by
  simp [appendSubmissionToGitHub, fetch, putGitHubFile, commit, h1, h2]

theorem decodeFailureFallsBackToEmpty_witness :
    (Store.mk (some (Json.str "bad", 0))).blob = some (Json.str "bad", 0)
    ∧ decodeSubmissions (Json.str "bad") = none
    ∧ appendSubmissionToGitHub ⟨some (Json.str "bad", 0)⟩ id sampleSub =
        ⟨.ok, ⟨some (encodeSubmissions [sampleSub], 0 + 1)⟩, 1, 1, some (some 0),
          some (encodeSubmissions [sampleSub])⟩ :=
  ⟨rfl, rfl, decodeFailureFallsBackToEmpty ⟨some (Json.str "bad", 0)⟩
    (Json.str "bad") 0 sampleSub rfl rfl⟩

/-- C4: when the store holds content that decodes to ledger L, the only
content the operation hands to commit is the encoding of L with the
new record appended, so the committed ledger contains every previously
committed record and exactly one new one. -/
theorem committedContentExtendsLedger (st : Store) (mid : Store → Store)
    (item : Submission) (c : Json) (v : Nat) (L : List Submission)
    (h1 : st.blob = some (c, v)) (h2 : decodeSubmissions c = some L) :
    (appendSubmissionToGitHub st mid item).commitContent
        = some (encodeSubmissions (L ++ [item]))
    ∧ decodeSubmissions (encodeSubmissions (L ++ [item])) = some (L ++ [item])
    ∧ ∀ r ∈ L, r ∈ L ++ [item] := by
  refine ⟨?_, decodeSubmissions_encodeSubmissions _,
    fun r hr => List.mem_append_left _ hr⟩
  simp [appendSubmissionToGitHub, fetch, h1, h2]

theorem committedContentExtendsLedger_witness :
    (Store.mk (some (encodeSubmissions [sampleSub], 3))).blob
        = some (encodeSubmissions [sampleSub], 3)
    ∧ decodeSubmissions (encodeSubmissions [sampleSub]) = some [sampleSub]
    ∧ ((appendSubmissionToGitHub ⟨some (encodeSubmissions [sampleSub], 3)⟩ id
          ⟨"Bob", "555-0101", "", "t1"⟩).commitContent
        = some (encodeSubmissions ([sampleSub] ++ [⟨"Bob", "555-0101", "", "t1"⟩]))
      ∧ decodeSubmissions (encodeSubmissions ([sampleSub] ++ [⟨"Bob", "555-0101", "", "t1"⟩]))
          = some ([sampleSub] ++ [⟨"Bob", "555-0101", "", "t1"⟩])
      ∧ ∀ r ∈ [sampleSub], r ∈ [sampleSub] ++ [⟨"Bob", "555-0101", "", "t1"⟩]) :=
  ⟨rfl, decodeSubmissions_encodeSubmissions _,
    committedContentExtendsLedger ⟨some (encodeSubmissions [sampleSub], 3)⟩ id
      ⟨"Bob", "555-0101", "", "t1"⟩ (encodeSubmissions [sampleSub]) 3 [sampleSub]
      rfl (decodeSubmissions_encodeSubmissions _)⟩

/-- Folding a list of appends over a quiescent store holding a
well-formed ledger appends all the records in order, bumping the
version once per record. -/
theorem runAppends_blob (items : List Submission) :
    ∀ (L : List Submission) (v : Nat),
      (runAppends ⟨some (encodeSubmissions L, v)⟩ items).blob
        = some (encodeSubmissions (L ++ items), v + items.length) := by
  induction items with
  | nil => intro L v; simp [runAppends]
  | cons it rest ih =>
      intro L v
      simp only [runAppends, List.foldl_cons] at *
      rw [appendSubmissionToGitHub_step]
      rw [ih (L ++ [it]) (v + 1)]
      have hv : v + 1 + rest.length = v + (rest.length + 1) := by omega
      simp only [List.append_assoc, List.singleton_append, List.length_cons, hv]

/-- C5: appending N records with no conflicts and no fetch failures
(the quiescent store) yields the initial ledger followed by the N
records in order: the length grows by N, each composed content is the
fetched ledger plus the one new record, and a record submitted once
and not already present appears exactly once, unchanged. -/
theorem appendSequenceCorrect (st : Store) (L0 : List Submission) (v : Nat)
    (items : List Submission)
    (h : st.blob = some (encodeSubmissions L0, v)) :
    ∃ Lf, (runAppends st items).blob
        = some (encodeSubmissions Lf, v + items.length)
      ∧ Lf = L0 ++ items
      ∧ Lf.length = L0.length + items.length
      ∧ (∀ (Lc : List Submission) (vc : Nat) (itc : Submission),
          (appendSubmissionToGitHub ⟨some (encodeSubmissions Lc, vc)⟩ id
            itc).commitContent = some (encodeSubmissions (Lc ++ [itc])))
      ∧ ∀ r ∈ items, items.count r = 1 → r ∉ L0 → Lf.count r = 1 := by
  obtain ⟨b⟩ := st
  simp only at h
  subst h
  refine ⟨L0 ++ items, runAppends_blob items L0 v, rfl, by simp,
    fun Lc vc itc => by rw [appendSubmissionToGitHub_step], ?_⟩
  intro r hr hcount hnot
  rw [List.count_append, List.count_eq_zero_of_not_mem hnot, hcount]

theorem appendSequenceCorrect_witness :
    (Store.mk (some (encodeSubmissions [], 0))).blob
        = some (encodeSubmissions [], 0)
    ∧ ∃ Lf, (runAppends ⟨some (encodeSubmissions [], 0)⟩ [sampleSub]).blob
          = some (encodeSubmissions Lf, 0 + [sampleSub].length)
        ∧ Lf = [] ++ [sampleSub]
        ∧ Lf.length = List.length ([] : List Submission) + [sampleSub].length
        ∧ (∀ (Lc : List Submission) (vc : Nat) (itc : Submission),
            (appendSubmissionToGitHub ⟨some (encodeSubmissions Lc, vc)⟩ id
              itc).commitContent = some (encodeSubmissions (Lc ++ [itc])))
        ∧ ∀ r ∈ [sampleSub], List.count r [sampleSub] = 1 → r ∉ ([] : List Submission) →
            Lf.count r = 1 :=
  ⟨rfl, appendSequenceCorrect ⟨some (encodeSubmissions [], 0)⟩ [] 0 [sampleSub] rfl⟩

/-- C2 fails on the code: under an environment that answers the first
commit call with Conflict and would answer a second with Committed
(k = 2 ≤ 5), the operation does not succeed — there is no retry loop,
so the single Conflict aborts the whole append. -/
theorem conflictThenCommitNotRetried :
    (fun n => if n = 1 then CommitResult.conflict else CommitResult.committed) 1
        = CommitResult.conflict
    ∧ (fun n => if n = 1 then CommitResult.conflict else CommitResult.committed) 2
        = CommitResult.committed
    ∧ (2 : Nat) ≤ 5
    ∧ (appendSubmissionOracle (.found (Json.arr []) 0)
        (fun n => if n = 1 then CommitResult.conflict else CommitResult.committed)
        sampleSub).1 = .appendFailed :=
  ⟨rfl, rfl, by decide, rfl⟩

/-- C2 amended: the operation makes exactly one commit attempt; when
that first attempt returns Committed, the operation succeeds and the
committed content is the ledger decoded from that (single) fetch with
the new record appended, never a stale composition; a Conflict on the
first attempt instead fails the operation with no further attempt. -/
theorem singleAttemptCommitContent (content : Json) (v : Nat)
    (oracle : Nat → CommitResult) (item : Submission) (L : List Submission)
    (hd : decodeSubmissions content = some L) :
    (appendSubmissionOracle (.found content v) oracle item).2.1 = 1
    ∧ (oracle 1 = .committed →
        appendSubmissionOracle (.found content v) oracle item
          = (.ok, 1, some (encodeSubmissions (L ++ [item]))))
    ∧ (oracle 1 = .conflict →
        appendSubmissionOracle (.found content v) oracle item
          = (.appendFailed, 1, none)) := by
  refine ⟨?_, fun hc => ?_, fun hc => ?_⟩ <;>
    [rcases h1 : oracle 1 with _ | _; skip; skip] <;>
    simp_all [appendSubmissionOracle, hd]

theorem singleAttemptCommitContent_witness :
    decodeSubmissions (Json.arr []) = some []
    ∧ ((appendSubmissionOracle (.found (Json.arr []) 0)
          (fun _ => CommitResult.committed) sampleSub).2.1 = 1
      ∧ ((fun _ => CommitResult.committed) 1 = CommitResult.committed →
          appendSubmissionOracle (.found (Json.arr []) 0)
            (fun _ => CommitResult.committed) sampleSub
            = (.ok, 1, some (encodeSubmissions ([] ++ [sampleSub]))))
      ∧ ((fun _ => CommitResult.committed) 1 = CommitResult.conflict →
          appendSubmissionOracle (.found (Json.arr []) 0)
            (fun _ => CommitResult.committed) sampleSub
            = (.appendFailed, 1, none))) :=
  ⟨rfl, singleAttemptCommitContent (Json.arr []) 0
    (fun _ => CommitResult.committed) sampleSub [] rfl⟩

/-- C3 fails on the code: when the store answers every commit call with
Conflict, the operation does fail, but after exactly one commit
attempt, not after five — there is no maxAttempts loop. -/
theorem exhaustionAfterOneNotFive :
    (∀ n : Nat, (fun _ : Nat => CommitResult.conflict) n = CommitResult.conflict)
    ∧ (appendSubmissionOracle (.found (Json.arr []) 0)
        (fun _ => CommitResult.conflict) sampleSub).1 = .appendFailed
    ∧ (appendSubmissionOracle (.found (Json.arr []) 0)
        (fun _ => CommitResult.conflict) sampleSub).2.1 = 1
    ∧ (1 : Nat) ≠ 5 :=
  ⟨fun _ => rfl, rfl, rfl, by decide⟩

/-- C3 amended: when a concurrent writer moved the blob to a different
version between the fetch and the commit, the conditional commit is
rejected, the operation fails after exactly one commit attempt, and
the append writes nothing: the blob is exactly as the interference
left it. -/
theorem conflictFailsAfterOneAttempt (st : Store) (mid : Store → Store)
    (item : Submission) (c c2 : Json) (v v2 : Nat)
    (h1 : st.blob = some (c, v)) (h2 : (mid st).blob = some (c2, v2))
    (hne : v ≠ v2) :
    (appendSubmissionToGitHub st mid item).result = .appendFailed
    ∧ (appendSubmissionToGitHub st mid item).commitCalls = 1
    ∧ (appendSubmissionToGitHub st mid item).store = mid st := by
  simp [appendSubmissionToGitHub, fetch, putGitHubFile, commit, h1, h2, hne]

theorem conflictFailsAfterOneAttempt_witness :
    (Store.mk (some (Json.arr [], 0))).blob = some (Json.arr [], 0)
    ∧ ((fun _ => Store.mk (some (Json.arr [], 1)))
          (Store.mk (some (Json.arr [], 0)))).blob = some (Json.arr [], 1)
    ∧ (0 : Nat) ≠ 1
    ∧ ((appendSubmissionToGitHub ⟨some (Json.arr [], 0)⟩
          (fun _ => ⟨some (Json.arr [], 1)⟩) sampleSub).result = .appendFailed
      ∧ (appendSubmissionToGitHub ⟨some (Json.arr [], 0)⟩
          (fun _ => ⟨some (Json.arr [], 1)⟩) sampleSub).commitCalls = 1
      ∧ (appendSubmissionToGitHub ⟨some (Json.arr [], 0)⟩
          (fun _ => ⟨some (Json.arr [], 1)⟩) sampleSub).store
          = (fun _ => Store.mk (some (Json.arr [], 1)))
              (Store.mk (some (Json.arr [], 0)))) :=
  ⟨rfl, rfl, by decide,
    conflictFailsAfterOneAttempt ⟨some (Json.arr [], 0)⟩
      (fun _ => ⟨some (Json.arr [], 1)⟩) sampleSub (Json.arr []) (Json.arr [])
      0 1 rfl rfl (by decide)⟩

/-- C6: the record codec round-trips — decoding the encoding of any
record sequence, the empty one included, returns exactly that
sequence. -/
theorem codecRoundTrip (xs : List Submission) :
    decodeSubmissions (encodeSubmissions xs) = some xs :=
  decodeSubmissions_encodeSubmissions xs

/-- C8: a POST whose decoded body has name or phone blank after
trimming is answered 400 with the store untouched: no fetch and no
commit is issued. -/
theorem validationShortCircuit (now : String) (st : Store) (r : Request)
    (inp : LoginInput) (hm : r.method = "POST")
    (hd : decodeLoginBody r.body = some inp)
    (hv : trimSpace inp.name = "" ∨ trimSpace inp.phone = "") :
    handleLogin now st r = ⟨400, st, 0, 0, none⟩ := by
  simp [handleLogin, withCORS, loginHandler, hm, hd, hv]

theorem validationShortCircuit_witness :
    (Request.mk "POST" (Json.obj [("name", Json.str " ")])).method = "POST"
    ∧ decodeLoginBody (Json.obj [("name", Json.str " ")]) = some ⟨" ", "", ""⟩
    ∧ (trimSpace " " = "" ∨ trimSpace "" = "")
    ∧ handleLogin "t0" ⟨none⟩ ⟨"POST", Json.obj [("name", Json.str " ")]⟩
        = ⟨400, ⟨none⟩, 0, 0, none⟩ :=
  ⟨rfl, rfl, Or.inl rfl,
    validationShortCircuit "t0" ⟨none⟩ ⟨"POST", Json.obj [("name", Json.str " ")]⟩
      ⟨" ", "", ""⟩ rfl rfl (Or.inl rfl)⟩

/-- C9 fails on the code: the linkedin value is not passed through
untouched — the handler stores its whitespace-trimmed form, so a
supplied value with surrounding spaces differs from the stored one. -/
theorem linkedinNotUntouched :
    (handleLogin "t0" ⟨none⟩
        ⟨"POST", Json.obj [("name", Json.str "Ada"), ("phone", Json.str "555"),
          ("linkedin", Json.str " link ")]⟩).appended
      = some ⟨"Ada", "555", "link", "t0"⟩
    ∧ ("link" : String) ≠ " link " :=
  ⟨rfl, by decide⟩

/-- C9 amended: for every valid POST, the linkedin string stored in the
appended record is the whitespace-trimmed form of the linkedin string
supplied in the request body (name and phone are stored trimmed as
well). -/
theorem linkedinStoredTrimmed (now : String) (st : Store) (r : Request)
    (inp : LoginInput) (hm : r.method = "POST")
    (hd : decodeLoginBody r.body = some inp)
    (hn : ¬ trimSpace inp.name = "") (hp : ¬ trimSpace inp.phone = "") :
    (handleLogin now st r).appended
      = some ⟨trimSpace inp.name, trimSpace inp.phone, trimSpace inp.linkedin,
          now⟩ := by
  rcases hres : (appendSubmissionToGitHub st id
      ⟨trimSpace inp.name, trimSpace inp.phone, trimSpace inp.linkedin,
        now⟩).result with _ | _ <;>
    simp [handleLogin, withCORS, loginHandler, hm, hd, hn, hp, hres]

theorem linkedinStoredTrimmed_witness :
    (Request.mk "POST" (Json.obj [("name", Json.str " Ada "),
        ("phone", Json.str "555"), ("linkedin", Json.str " L ")])).method = "POST"
    ∧ decodeLoginBody (Json.obj [("name", Json.str " Ada "),
        ("phone", Json.str "555"), ("linkedin", Json.str " L ")])
        = some ⟨" Ada ", "555", " L "⟩
    ∧ ¬ trimSpace " Ada " = ""
    ∧ ¬ trimSpace "555" = ""
    ∧ (handleLogin "t0" ⟨none⟩ ⟨"POST", Json.obj [("name", Json.str " Ada "),
        ("phone", Json.str "555"), ("linkedin", Json.str " L ")]⟩).appended
        = some ⟨trimSpace " Ada ", trimSpace "555", trimSpace " L ", "t0"⟩ :=
  ⟨rfl, rfl, by decide, by decide,
    linkedinStoredTrimmed "t0" ⟨none⟩ ⟨"POST", Json.obj [("name", Json.str " Ada "),
        ("phone", Json.str "555"), ("linkedin", Json.str " L ")]⟩
      ⟨" Ada ", "555", " L "⟩ rfl rfl (by decide) (by decide)⟩

/-- C10 fails on the code: an OPTIONS request to /api/login is not
POST, yet the CORS wrapper answers it 204 No Content, not 405. -/
theorem optionsGets204Not405 :
    ¬ ("OPTIONS" : String) = "POST"
    ∧ (handleLogin "t0" ⟨none⟩ ⟨"OPTIONS", Json.null⟩).status = 204
    ∧ (204 : Nat) ≠ 405 :=
  ⟨by decide, rfl, by decide⟩

/-- C10 amended: a non-POST request is answered without any store
traffic — 204 when the method is OPTIONS (CORS preflight, short-
circuited by the wrapper), 405 for every other non-POST method. -/
theorem nonPostHandled (now : String) (st : Store) (r : Request)
    (hm : r.method ≠ "POST") :
    (r.method = "OPTIONS" → handleLogin now st r = ⟨204, st, 0, 0, none⟩)
    ∧ (r.method ≠ "OPTIONS" → handleLogin now st r = ⟨405, st, 0, 0, none⟩) := by
  refine ⟨fun ho => ?_, fun ho => ?_⟩
  · simp [handleLogin, withCORS, ho]
  · simp [handleLogin, withCORS, loginHandler, hm, ho]

theorem nonPostHandled_witness :
    (Request.mk "GET" Json.null).method ≠ "POST"
    ∧ (((Request.mk "GET" Json.null).method = "OPTIONS" →
        handleLogin "t0" ⟨none⟩ ⟨"GET", Json.null⟩ = ⟨204, ⟨none⟩, 0, 0, none⟩)
      ∧ ((Request.mk "GET" Json.null).method ≠ "OPTIONS" →
        handleLogin "t0" ⟨none⟩ ⟨"GET", Json.null⟩ = ⟨405, ⟨none⟩, 0, 0, none⟩)) :=
  ⟨by decide, nonPostHandled "t0" ⟨none⟩ ⟨"GET", Json.null⟩ (by decide)⟩

end QuizServer
